import Mathlib

/-!
Verification of the DTS / Bluetooth sync helper (`dts_bt_sync_tool.py`).

The tool's numeric state lives in Tk variables; we embed it as a record of
rationals (Python float arithmetic modelled as exact rational arithmetic)
plus enums and booleans.  Scheduling primitives (`root.after`, a
`threading.Timer`, or a plain direct call) are embedded as an explicit
`Mech` tag attached to each emitted event, so that order, separation and
the scheduling mechanism of a test invocation are all visible in the model.
-/

namespace DtsBt

/-- The `delay_target_var` enum: the string values "Audio" / "Visual". -/
inductive Target where
  | audio : Target
  | visual : Target
deriving DecidableEq, Repr

/-- The two observable test events: the visual flash (`_flash_on`) and the
audible beep (`_do_beep`). -/
inductive Ev where
  | flash : Ev
  | beep : Ev
deriving DecidableEq, Repr

/-- How an event is dispatched in `_perform_test_events`:
`direct` is a plain synchronous call, `uiAfter ms` is `self.root.after(ms, ...)`,
`timerAfter ms` is `threading.Timer(ms/1000.0, ...).start()`. -/
inductive Mech where
  | direct : Mech
  | uiAfter : ℤ → Mech
  | timerAfter : ℤ → Mech
deriving DecidableEq, Repr

/-- The Tk state variables of `SyncApp` that the verified logic reads
(`fps_var`, `audio_delay_frames_var`, `delay_target_var`,
`countdown_var`, `countdown_step_ms_var`, `countdown_beeps_var`). -/
structure TState where
  fps : ℚ
  delayFrames : ℚ
  delayTarget : Target
  countdownOn : Bool
  countdownStepMs : ℤ
  countdownBeeps : Bool
deriving DecidableEq, Repr

/-- Audio backend configuration seen by `play_beep`: whether `winsound`
imported (Windows), whether `simpleaudio`+`numpy` imported, and whether the
`sa.play_buffer` call raises on this attempt. -/
structure AudioCfg where
  useWinsound : Bool
  simpleaudioAvailable : Bool
  playBufferThrows : Bool
deriving DecidableEq, Repr

/-- The `sa.play_buffer(...)` call inside `play_beep`, which may raise;
its exception is modelled as `Except.error`. -/
def sa_play_buffer (c : AudioCfg) : Except Unit Unit :=
  if c.playBufferThrows then Except.error () else Except.ok ()

/-- `play_beep` (module level): on the winsound path it spawns a daemon
thread and returns `True`; on the simpleaudio path it plays the buffer
inside a `try`, returning `False` if `sa.play_buffer` raises; with no
backend it returns `False`.  The tone frequency / duration / volume
arguments do not influence the returned status in the source, so they are
not parameters of the model. -/
def play_beep (c : AudioCfg) : Bool :=
  if c.useWinsound then
    true
  else if c.simpleaudioAvailable then
    match sa_play_buffer c with
    | Except.ok _ => true
    | Except.error _ => false
  else
    false

/-- Result of `_do_beep`: whether `play_beep` reported success, and how
many warning dialogs the call surfaced. -/
structure BeepResult where
  ok : Bool
  warnings : ℕ
deriving DecidableEq, Repr

/-- `SyncApp._do_beep` (underscore dropped): calls `play_beep` and, when it
returns `False`, shows exactly one warning dialog (inside a `try` whose
failure is swallowed), then returns normally.  The `max 50` / `max 20`
clamping of the default frequency / duration arguments is display-side and
does not affect the status or warning count. -/
def do_beep (c : AudioCfg) : BeepResult :=
  let ok := play_beep c
  { ok := ok, warnings := if ok then 0 else 1 }

/-- `SyncApp.frames_to_ms`: `fps = max(self.fps_var.get(), 1e-6);
return 1000.0 * (frames / fps)`. -/
def frames_to_ms (fps frames : ℚ) : ℚ :=
  1000 * (frames / max fps (1 / 1000000))

/-- Python 3 `round` on the exact value: round half to even,
as used in `int(round(...))`. -/
def pyRound (q : ℚ) : ℤ :=
  if q - (⌊q⌋ : ℚ) < 1 / 2 then ⌊q⌋
  else if 1 / 2 < q - (⌊q⌋ : ℚ) then ⌊q⌋ + 1
  else if ⌊q⌋ % 2 = 0 then ⌊q⌋ else ⌊q⌋ + 1

/-- `delay_ms` as computed at the top of `_perform_test_events`:
`int(round(self.frames_to_ms(abs(frames))))`. -/
def delay_ms_of (s : TState) : ℤ :=
  pyRound (frames_to_ms s.fps |s.delayFrames|)

/-- `SyncApp._perform_test_events` (underscore dropped): the flash/beep
pair, in chronological order, each tagged with its dispatch mechanism,
paired with the number of audio warnings the invocation surfaces (the one
`_do_beep` call per invocation warns exactly when `play_beep` fails).
Mirrors the four branches on `delay_target_var` and the sign of `frames`:
the Audio / negative branch schedules the flash with
`self.root.after(abs(delay_ms), self._flash_on)` unconditionally, the
other three branches fall back to a direct call when `delay_ms` is not
positive. -/
def perform_test_events (c : AudioCfg) (s : TState) : List (Ev × Mech) × ℕ :=
  let frames := s.delayFrames
  let delay_ms := delay_ms_of s
  let w := (do_beep c).warnings
  match s.delayTarget with
  | Target.audio =>
    if 0 ≤ frames then
      ([(Ev.flash, Mech.direct),
        (Ev.beep, if 0 < delay_ms then Mech.timerAfter delay_ms else Mech.direct)], w)
    else
      ([(Ev.beep, Mech.direct),
        (Ev.flash, Mech.uiAfter |delay_ms|)], w)
  | Target.visual =>
    if 0 ≤ frames then
      ([(Ev.beep, Mech.direct),
        (Ev.flash, if 0 < delay_ms then Mech.uiAfter delay_ms else Mech.direct)], w)
    else
      ([(Ev.flash, Mech.direct),
        (Ev.beep, if 0 < delay_ms then Mech.timerAfter delay_ms else Mech.direct)], w)

/-- Milliseconds until a dispatched call runs: a direct call runs now. -/
def mechDelayMs : Mech → ℤ
  | Mech.direct => 0
  | Mech.uiAfter ms => ms
  | Mech.timerAfter ms => ms

/-- Scheduled separation between the first and the second event of a test
invocation (the first event always fires at once). -/
def separation (c : AudioCfg) (s : TState) : ℤ :=
  match (perform_test_events c s).1 with
  | [_, (_, m)] => mechDelayMs m
  | _ => 0

/-- `SyncApp.nudge_delay`: adds `delta_frames` to `audio_delay_frames_var`
with no clamping. -/
def nudge_delay (s : TState) (delta : ℚ) : TState :=
  { s with delayFrames := s.delayFrames + delta }

/-- One countdown step as displayed by `show_step` inside
`_run_with_countdown`: the digit shown, the cue-tone frequency when
"Beep on each count" is enabled at that step (`None` otherwise; the cue
duration is fixed at 90 ms), and how long the step lasts before the next
`show_step` fires. -/
structure CdStep where
  label : String
  cueFreq : Option ℤ
  stepMs : ℤ
deriving DecidableEq, Repr

/-- Observable trace of one `run_test` invocation: the countdown steps in
order, whether the central text was cleared just before the events, and
the flash/beep pair. -/
structure TestTrace where
  steps : List CdStep
  clearedBefore : Bool
  events : List (Ev × Mech)
deriving DecidableEq, Repr

/-- `SyncApp._run_with_countdown` (underscore dropped), over a timeline of
states: `σ i` is the Tk state at the moment `show_step i` runs (`σ 0` is
trigger time; `show_step 3` is countdown completion).  `step` is computed
once at entry from `σ 0`; `countdown_beeps_var` is read afresh at each
step; `_perform_test_events` runs at completion and reads `σ 3`. -/
def run_with_countdown_tl (c : AudioCfg) (σ : ℕ → TState) : TestTrace :=
  let step := max 200 (σ 0).countdownStepMs
  { steps :=
      [⟨"3", if (σ 0).countdownBeeps then some 600 else none, step⟩,
       ⟨"2", if (σ 1).countdownBeeps then some 700 else none, step⟩,
       ⟨"1", if (σ 2).countdownBeeps then some 800 else none, step⟩],
    clearedBefore := true,
    events := (perform_test_events c (σ 3)).1 }

/-- `_run_with_countdown` when no setting changes while it runs. -/
def run_with_countdown (c : AudioCfg) (s : TState) : TestTrace :=
  run_with_countdown_tl c (fun _ => s)

/-- `SyncApp.run_test`: countdown pre-roll when `countdown_var` is set,
otherwise `_perform_test_events` directly. -/
def run_test (c : AudioCfg) (s : TState) : TestTrace :=
  if s.countdownOn then run_with_countdown c s
  else { steps := [], clearedBefore := false,
         events := (perform_test_events c s).1 }

/-- Repeat-loop state: `_running_repeat` and whether a `_repeat_timer`
tick is currently pending. -/
structure RepSt where
  runningRepeat : Bool
  timerPending : Bool
deriving DecidableEq, Repr

/-- `SyncApp._schedule_next_repeat` (underscore dropped): returns without
scheduling when `_running_repeat` is false, otherwise starts a
`threading.Timer` tick after `max(200, interval)` ms. -/
def schedule_next_repeat (s : RepSt) : RepSt :=
  if s.runningRepeat = false then s
  else { s with timerPending := true }

/-- `SyncApp._toggle_repeat` (underscore dropped), given the new value of
`repeat_var`: enabling sets `_running_repeat` and schedules the first
tick; disabling clears `_running_repeat` and cancels any pending timer. -/
def toggle_repeat (repeatVar : Bool) (s : RepSt) : RepSt :=
  if repeatVar then
    schedule_next_repeat { s with runningRepeat := true }
  else
    { runningRepeat := false, timerPending := false }

/-- `SyncApp._repeat_tick` (underscore dropped): the pending timer fires
(consuming the pending flag); if `_running_repeat` is false the tick
returns at once, otherwise it runs the test and (in the `finally`)
schedules the next tick.  The boolean reports whether a test ran. -/
def repeat_tick (s : RepSt) : RepSt × Bool :=
  let s0 : RepSt := { s with timerPending := false }
  if s0.runningRepeat = false then (s0, false)
  else (schedule_next_repeat s0, true)

/-- Number of test invocations produced by `n` consecutive ticks. -/
def ticks_run : ℕ → RepSt → ℕ
  | 0, _ => 0
  | n + 1, s => (if (repeat_tick s).2 then 1 else 0) + ticks_run n (repeat_tick s).1

/-- A concrete audio configuration (no backend) for closed instances. -/
def cfg0 : AudioCfg := { useWinsound := false, simpleaudioAvailable := false, playBufferThrows := false }

/-- A concrete winsound-backed configuration. -/
def cfgWin : AudioCfg := { useWinsound := true, simpleaudioAvailable := false, playBufferThrows := false }

/-- Scenario state: fps 24, delay target Audio, +12 frames. -/
def ex1 : TState :=
  { fps := 24, delayFrames := 12, delayTarget := Target.audio,
    countdownOn := false, countdownStepMs := 700, countdownBeeps := true }

/-- Scenario state: fps 24, delay target Visual, −6 frames. -/
def ex2 : TState :=
  { fps := 24, delayFrames := -6, delayTarget := Target.visual,
    countdownOn := false, countdownStepMs := 700, countdownBeeps := true }

/-- State exercising the Audio / negative branch with a delay that rounds
to 0 ms: fps 24, delay target Audio, −0.01 frames. -/
def sC4 : TState :=
  { fps := 24, delayFrames := -(1 / 100), delayTarget := Target.audio,
    countdownOn := false, countdownStepMs := 700, countdownBeeps := true }

/-- State with the delay slider at its upper bound of 80 frames. -/
def s80 : TState :=
  { fps := 24, delayFrames := 80, delayTarget := Target.audio,
    countdownOn := false, countdownStepMs := 700, countdownBeeps := true }

lemma pyRound_nonneg (q : ℚ) (h : 0 ≤ q) : 0 ≤ pyRound q := by
  have hf : 0 ≤ ⌊q⌋ := Int.floor_nonneg.mpr h
  unfold pyRound
  split
  · exact hf
  · split
    · omega
    · split
      · exact hf
      · omega

lemma delay_ms_nonneg (s : TState) : 0 ≤ delay_ms_of s := by
  apply pyRound_nonneg
  unfold frames_to_ms
  have hmax : (0 : ℚ) < max s.fps (1 / 1000000) :=
    lt_of_lt_of_le (by norm_num) (le_max_right _ _)
  exact mul_nonneg (by norm_num) (div_nonneg (abs_nonneg _) hmax.le)

lemma sep_eq_delay (c : AudioCfg) (s : TState) : separation c s = delay_ms_of s := by
  rcases s with ⟨fps, df, tgt, co, cs, cb⟩
  have hd : 0 ≤ pyRound (frames_to_ms fps |df|) :=
    delay_ms_nonneg ⟨fps, df, tgt, co, cs, cb⟩
  cases tgt
  case audio =>
    by_cases h : (0 : ℚ) ≤ df
    · by_cases h2 : 0 < pyRound (frames_to_ms fps |df|)
      · simp [separation, perform_test_events, delay_ms_of, h, h2, mechDelayMs]
      · have h0 : pyRound (frames_to_ms fps |df|) = 0 := le_antisymm (not_lt.mp h2) hd
        simp [separation, perform_test_events, delay_ms_of, h, h2, mechDelayMs, h0]
    · simp [separation, perform_test_events, delay_ms_of, h, mechDelayMs,
        abs_of_nonneg hd]
  case visual =>
    by_cases h : (0 : ℚ) ≤ df
    · by_cases h2 : 0 < pyRound (frames_to_ms fps |df|)
      · simp [separation, perform_test_events, delay_ms_of, h, h2, mechDelayMs]
      · have h0 : pyRound (frames_to_ms fps |df|) = 0 := le_antisymm (not_lt.mp h2) hd
        simp [separation, perform_test_events, delay_ms_of, h, h2, mechDelayMs, h0]
    · by_cases h2 : 0 < pyRound (frames_to_ms fps |df|)
      · simp [separation, perform_test_events, delay_ms_of, h, h2, mechDelayMs]
      · have h0 : pyRound (frames_to_ms fps |df|) = 0 := le_antisymm (not_lt.mp h2) hd
        simp [separation, perform_test_events, delay_ms_of, h, h2, mechDelayMs, h0]

/-- Claim C1: for every delay target and every sign of `delayFrames`
(zero counted as non-negative), `_perform_test_events` emits exactly one
flash and one beep, the flash first exactly when the target is Audio with
a non-negative delay or Visual with a negative delay, and the beep first
in the other two cases. -/
theorem c1_event_order (c : AudioCfg) (s : TState) :
    ((perform_test_events c s).1.map Prod.fst).count Ev.flash = 1 ∧
    ((perform_test_events c s).1.map Prod.fst).count Ev.beep = 1 ∧
    (perform_test_events c s).1.map Prod.fst =
      (if (s.delayTarget = Target.audio ∧ 0 ≤ s.delayFrames) ∨
          (s.delayTarget = Target.visual ∧ s.delayFrames < 0)
       then [Ev.flash, Ev.beep] else [Ev.beep, Ev.flash]) := by
  rcases s with ⟨fps, df, tgt, co, cs, cb⟩
  cases tgt
  case audio =>
    by_cases h : (0 : ℚ) ≤ df
    · simp [perform_test_events, h]
    · simp [perform_test_events, h]
  case visual =>
    by_cases h : (0 : ℚ) ≤ df
    · simp [perform_test_events, h, not_lt.mpr h]
    · simp [perform_test_events, h, not_le.mp h]

/-- Claim C1, instantiated at the fps 24, Audio, +12 scenario. -/
theorem c1_event_order_witness :
    (perform_test_events cfg0 ex1).1.map Prod.fst = [Ev.flash, Ev.beep] := by
  have h := (c1_event_order cfg0 ex1).2.2
  norm_num [ex1] at h
  exact h

/-- Claim C2: in every test invocation the scheduled separation between
the two events equals `delay_ms = round(frames_to_ms(|delayFrames|))`;
concretely 500 ms for fps 24, target Audio, +12 frames, and 250 ms for
fps 24, target Visual, −6 frames. -/
theorem c2_event_separation :
    (∀ (c : AudioCfg) (s : TState), separation c s = delay_ms_of s) ∧
    separation cfg0 ex1 = 500 ∧ separation cfg0 ex2 = 250 := by
  refine ⟨fun c s => sep_eq_delay c s, ?_, ?_⟩
  · rw [sep_eq_delay]
    norm_num [delay_ms_of, frames_to_ms, pyRound, ex1]
  · rw [sep_eq_delay]
    norm_num [delay_ms_of, frames_to_ms, pyRound, ex2]

/-- Claim C2, instantiated at the fps 24, Audio, +12 scenario. -/
theorem c2_event_separation_witness :
    separation cfg0 ex1 = delay_ms_of ex1 :=
  c2_event_separation.1 cfg0 ex1

/-- Claim C3 counterexample: at `fps = 10⁻⁷ > 0` the claimed identity
`frames_to_ms frames = 1000 * frames / fps` fails, because the divisor is
clamped to `max fps 10⁻⁶`: the code yields 10⁹ ms for one frame where the
claim demands 10¹⁰. -/
theorem c3_counterexample :
    (0 : ℚ) < 1 / 10000000 ∧
    frames_to_ms (1 / 10000000) 1 = 1000000000 ∧
    1000 * 1 / (1 / 10000000 : ℚ) = 10000000000 ∧
    frames_to_ms (1 / 10000000) 1 ≠ 1000 * 1 / (1 / 10000000) := by
  norm_num [frames_to_ms]

/-- Claim C3 (amended): for all `fps ≥ 10⁻⁶` (the clamp floor) and all
`frames`, `frames_to_ms fps frames = 1000 * frames / fps`; and
`frames_to_ms fps 0 = 0` for every `fps`.  For `0 < fps < 10⁻⁶` the
divisor is clamped to `10⁻⁶`, so the unclamped identity does not hold
there. -/
theorem c3_frames_to_ms_amended :
    (∀ fps frames : ℚ, 1 / 1000000 ≤ fps →
      frames_to_ms fps frames = 1000 * frames / fps) ∧
    (∀ fps : ℚ, frames_to_ms fps 0 = 0) := by
  constructor
  · intro fps frames h
    rw [frames_to_ms, max_eq_left h, mul_div_assoc]
  · intro fps
    simp [frames_to_ms]

/-- Claim C3 amended, witnessed at fps 24, 12 frames. -/
theorem c3_amended_witness :
    frames_to_ms 24 12 = 1000 * 12 / 24 ∧ frames_to_ms 24 0 = 0 :=
  ⟨c3_frames_to_ms_amended.1 24 12 (by norm_num), c3_frames_to_ms_amended.2 24⟩

lemma abs_hundredth : |(1 / 100 : ℚ)| = 1 / 100 :=
  abs_of_nonneg (by norm_num)

lemma delay_ms_sC4 : delay_ms_of sC4 = 0 := by
  norm_num [delay_ms_of, frames_to_ms, pyRound, sC4, abs_hundredth]

/-- Claim C4 counterexample: with target Audio and `delayFrames = −0.01`
at fps 24 the computed `delay_ms` is 0, yet the second event (the flash)
is dispatched through `root.after(abs(delay_ms), ...)` — a scheduled
zero-delay timer callback, not a direct call. -/
theorem c4_counterexample :
    delay_ms_of sC4 = 0 ∧
    (perform_test_events cfg0 sC4).1 =
      [(Ev.beep, Mech.direct), (Ev.flash, Mech.uiAfter 0)] ∧
    Mech.uiAfter 0 ≠ Mech.direct := by
  refine ⟨delay_ms_sC4, ?_, by simp⟩
  norm_num [perform_test_events, sC4, delay_ms_of, frames_to_ms, pyRound,
    abs_hundredth]

/-- Claim C4 (amended): whenever `delay_ms = 0`, the second event is a
direct call in the (Audio, ≥ 0), (Visual, ≥ 0) and (Visual, < 0) branches;
in the (Audio, < 0) branch the flash is always dispatched through
`root.after`, with a zero-delay timer callback when `delay_ms = 0`. -/
theorem c4_zero_delay_amended (c : AudioCfg) (s : TState)
    (h : delay_ms_of s = 0) :
    (¬(s.delayTarget = Target.audio ∧ s.delayFrames < 0) →
      (perform_test_events c s).1.map Prod.snd = [Mech.direct, Mech.direct]) ∧
    (s.delayTarget = Target.audio → s.delayFrames < 0 →
      (perform_test_events c s).1.map Prod.snd =
        [Mech.direct, Mech.uiAfter 0]) := by
  rcases s with ⟨fps, df, tgt, co, cs, cb⟩
  simp only [delay_ms_of] at h
  cases tgt
  case audio =>
    by_cases hs : (0 : ℚ) ≤ df
    · constructor
      · intro _
        simp [perform_test_events, delay_ms_of, hs, h]
      · intro _ hneg
        exact absurd hs (not_le.mpr hneg)
    · constructor
      · intro hc
        exact absurd ⟨rfl, not_le.mp hs⟩ hc
      · intro _ _
        simp [perform_test_events, delay_ms_of, hs, h]
  case visual =>
    constructor
    · intro _
      by_cases hs : (0 : ℚ) ≤ df <;>
        simp [perform_test_events, delay_ms_of, hs, h]
    · intro hc
      exact absurd hc (by simp)

/-- Claim C4 amended, witnessed on the Audio / negative / zero-delay
state `sC4`. -/
theorem c4_amended_witness :
    (perform_test_events cfg0 sC4).1.map Prod.snd =
      [Mech.direct, Mech.uiAfter 0] :=
  (c4_zero_delay_amended cfg0 sC4 delay_ms_sC4).2 rfl (by norm_num [sC4])

/-- Claim C5 counterexample: `nudge_delay` does not clamp — a +1 frame
nudge from the in-range value 80 leaves `delayFrames = 81`, outside
[-80, 80]. -/
theorem c5_counterexample :
    (-80 ≤ s80.delayFrames ∧ s80.delayFrames ≤ 80) ∧
    (nudge_delay s80 1).delayFrames = 81 ∧
    ¬ (nudge_delay s80 1).delayFrames ≤ 80 := by
  norm_num [s80, nudge_delay]

/-- Claim C5 (amended): `nudge_delay` adds the delta with no clamping, so
`delayFrames` stays within [-80, 80] after a nudge exactly when the
unclamped sum already lies in that range; the slider widget itself is
configured with range [-80, 80], but keyboard nudges can leave it. -/
theorem c5_nudge_amended (s : TState) (d : ℚ) :
    (nudge_delay s d).delayFrames = s.delayFrames + d ∧
    (-80 ≤ s.delayFrames + d → s.delayFrames + d ≤ 80 →
      -80 ≤ (nudge_delay s d).delayFrames ∧
        (nudge_delay s d).delayFrames ≤ 80) := by
  refine ⟨rfl, fun h1 h2 => ⟨?_, ?_⟩⟩ <;> simpa [nudge_delay]

/-- Claim C5 amended, witnessed by a −1 frame nudge from 80. -/
theorem c5_amended_witness :
    (nudge_delay s80 (-1)).delayFrames = 79 ∧
    (-80 ≤ (nudge_delay s80 (-1)).delayFrames ∧
      (nudge_delay s80 (-1)).delayFrames ≤ 80) := by
  refine ⟨?_, (c5_nudge_amended s80 (-1)).2 (by norm_num [s80]) (by norm_num [s80])⟩
  rw [(c5_nudge_amended s80 (-1)).1]
  norm_num [s80]

/-- Claim C6: with countdown enabled, `run_test` shows exactly the three
digits "3", "2", "1", each step lasting `max 200 stepMs` (so at least
200 ms), with cue tones at 600 / 700 / 800 Hz exactly when "Beep on each
count" is set, then clears the display and invokes the flash/beep pair
once; with countdown disabled it invokes the pair directly with zero
countdown steps. -/
theorem c6_countdown (c : AudioCfg) (s : TState) :
    (run_test c s).steps.map CdStep.label =
      (if s.countdownOn then ["3", "2", "1"] else []) ∧
    (run_test c s).steps.map CdStep.cueFreq =
      (if s.countdownOn then
        (if s.countdownBeeps then [some 600, some 700, some 800]
         else [none, none, none])
       else []) ∧
    (run_test c s).steps.map CdStep.stepMs =
      (if s.countdownOn then
        [max 200 s.countdownStepMs, max 200 s.countdownStepMs,
         max 200 s.countdownStepMs]
       else []) ∧
    (200 : ℤ) ≤ max 200 s.countdownStepMs ∧
    (run_test c s).clearedBefore = s.countdownOn ∧
    (run_test c s).events = (perform_test_events c s).1 := by
  cases hc : s.countdownOn <;> cases hb : s.countdownBeeps <;>
    simp [run_test, run_with_countdown, run_with_countdown_tl, hc, hb,
      le_max_left]

/-- Claim C6, instantiated with countdown enabled. -/
theorem c6_countdown_witness :
    (run_test cfg0 { ex1 with countdownOn := true }).steps.map CdStep.label =
      ["3", "2", "1"] := by
  have h := (c6_countdown cfg0 { ex1 with countdownOn := true }).1
  simpa using h

/-- Claim C7: disabling repeat cancels the pending tick, and a tick that
observes `_running_repeat = false` runs no test, schedules no successor,
and leaves the flag cleared — hence any number of subsequent ticks run
zero tests. -/
theorem c7_repeat_disable :
    (∀ s : RepSt, (toggle_repeat false s).runningRepeat = false ∧
      (toggle_repeat false s).timerPending = false) ∧
    (∀ t : RepSt, t.runningRepeat = false →
      (repeat_tick t).2 = false ∧
      (repeat_tick t).1.timerPending = false ∧
      (repeat_tick t).1.runningRepeat = false) ∧
    (∀ (n : ℕ) (t : RepSt), t.runningRepeat = false → ticks_run n t = 0) := by
  refine ⟨fun s => by simp [toggle_repeat], fun t h => by simp [repeat_tick, h], ?_⟩
  intro n
  induction n with
  | zero => intro t h; rfl
  | succ n ih =>
    intro t h
    have h1 : (repeat_tick t).2 = false := by simp [repeat_tick, h]
    have h2 : (repeat_tick t).1.runningRepeat = false := by simp [repeat_tick, h]
    simp [ticks_run, h1, ih _ h2]

/-- Claim C7, witnessed on a disabled state with a pending tick. -/
theorem c7_repeat_disable_witness :
    (repeat_tick ⟨false, true⟩).2 = false ∧
    (repeat_tick ⟨false, true⟩).1.timerPending = false ∧
    (repeat_tick ⟨false, true⟩).1.runningRepeat = false ∧
    ticks_run 5 ⟨false, true⟩ = 0 := by
  have h := c7_repeat_disable.2.1 ⟨false, true⟩ rfl
  exact ⟨h.1, h.2.1, h.2.2, c7_repeat_disable.2.2 5 ⟨false, true⟩ rfl⟩

/-- Claim C8: `play_beep` reports failure as `False` — with no backend,
and when the simpleaudio playback attempt raises (the exception is caught,
never propagated); `_do_beep` surfaces exactly one warning on a `False`
return and zero otherwise, returning normally; and the scheduled event
pair, including the flash, is identical for every audio configuration, so
a failed beep never prevents a scheduled flash.  (The winsound path is
fire-and-forget on a daemon thread and has no synchronous failure.) -/
theorem c8_beep_failure :
    (∀ c : AudioCfg, c.useWinsound = false → c.simpleaudioAvailable = false →
      play_beep c = false) ∧
    (∀ c : AudioCfg, c.useWinsound = false →
      sa_play_buffer c = Except.error () → play_beep c = false) ∧
    (∀ c : AudioCfg, (do_beep c).ok = play_beep c ∧
      (do_beep c).warnings = (if play_beep c then 0 else 1)) ∧
    (∀ (c d : AudioCfg) (s : TState),
      (perform_test_events c s).1 = (perform_test_events d s).1) ∧
    (∀ (c : AudioCfg) (s : TState),
      Ev.flash ∈ (perform_test_events c s).1.map Prod.fst) := by
  refine ⟨?_, ?_, ?_, ?_, ?_⟩
  · intro c h1 h2
    simp [play_beep, h1, h2]
  · intro c h1 herr
    by_cases hsa : c.simpleaudioAvailable <;> simp [play_beep, h1, hsa, herr]
  · intro c
    exact ⟨rfl, rfl⟩
  · intro c d s
    rcases s with ⟨fps, df, tgt, co, cs, cb⟩
    cases tgt <;> by_cases h : (0 : ℚ) ≤ df <;> simp [perform_test_events, h]
  · intro c s
    rcases s with ⟨fps, df, tgt, co, cs, cb⟩
    cases tgt <;> by_cases h : (0 : ℚ) ≤ df <;> simp [perform_test_events, h]

/-- Claim C8, witnessed on the no-backend and raising-simpleaudio
configurations. -/
theorem c8_beep_failure_witness :
    play_beep cfg0 = false ∧
    play_beep { useWinsound := false, simpleaudioAvailable := true,
                playBufferThrows := true } = false ∧
    (do_beep cfg0).warnings = 1 ∧
    (perform_test_events cfg0 ex1).1 = (perform_test_events cfgWin ex1).1 ∧
    Ev.flash ∈ (perform_test_events cfg0 ex1).1.map Prod.fst := by
  refine ⟨c8_beep_failure.1 cfg0 rfl rfl,
    c8_beep_failure.2.1 _ rfl rfl, ?_,
    c8_beep_failure.2.2.2.1 cfg0 cfgWin ex1,
    c8_beep_failure.2.2.2.2 cfg0 ex1⟩
  have h := (c8_beep_failure.2.2.1 cfg0).2
  rw [h, c8_beep_failure.1 cfg0 rfl rfl]
  rfl

/-- Claim C9: `frames_to_ms` never divides by zero: for every `fps`,
including non-positive values, the divisor is `max fps 10⁻⁶`, which is
positive and at least the floor `10⁻⁶`, and the quotient satisfies
the defining equation of exact division by that clamped divisor. -/
theorem c9_no_div_by_zero (fps frames : ℚ) :
    (0 : ℚ) < max fps (1 / 1000000) ∧
    (1 : ℚ) / 1000000 ≤ max fps (1 / 1000000) ∧
    frames_to_ms fps frames * max fps (1 / 1000000) = 1000 * frames := by
  have hpos : (0 : ℚ) < max fps (1 / 1000000) :=
    lt_of_lt_of_le (by norm_num) (le_max_right _ _)
  refine ⟨hpos, le_max_right _ _, ?_⟩
  rw [frames_to_ms, mul_assoc, div_mul_cancel₀ _ (ne_of_gt hpos)]

/-- Claim C9, instantiated at fps 24. -/
theorem c9_no_div_by_zero_witness :
    frames_to_ms 24 12 * max 24 (1 / 1000000) = 1000 * 12 :=
  (c9_no_div_by_zero 24 12).2.2

/-- Claim C10: the event pair fired at countdown completion is computed
from the state read when the countdown finishes (`σ 3`), and
`_perform_test_events` depends only on `delayFrames`, `delayTarget` and
`fps` — so changes to those settings during the countdown are reflected in
that same invocation. -/
theorem c10_fresh_state :
    (∀ (c : AudioCfg) (σ : ℕ → TState),
      (run_with_countdown_tl c σ).events = (perform_test_events c (σ 3)).1) ∧
    (∀ (c : AudioCfg) (s t : TState), s.delayFrames = t.delayFrames →
      s.delayTarget = t.delayTarget → s.fps = t.fps →
      (perform_test_events c s).1 = (perform_test_events c t).1) := by
  refine ⟨fun c σ => rfl, ?_⟩
  intro c s t h1 h2 h3
  rcases s with ⟨fps, df, tgt, co, cs, cb⟩
  rcases t with ⟨fps2, df2, tgt2, co2, cs2, cb2⟩
  simp only at h1 h2 h3
  subst h1; subst h2; subst h3
  rfl

/-- Claim C10, witnessed by changing every countdown setting between
trigger and completion. -/
theorem c10_fresh_state_witness :
    (perform_test_events cfg0 ex1).1 =
      (perform_test_events cfg0
        { ex1 with countdownOn := true, countdownStepMs := 999,
                   countdownBeeps := false }).1 :=
  c10_fresh_state.2 cfg0 ex1 _ rfl rfl rfl

end DtsBt
